import Mathlib

/-!
Verification development for the Scoutly repository (LINE research-scouting bot).

The Python sources under src/ are shallowly embedded as executable Lean
definitions.  Strings are modelled as Lean strings (lists of unicode code
points); where the Python code works on UTF-8 bytes (urllib quoting) the model
works on lists of naturals below 256.  Each embedded definition is annotated
with the source function it models.
-/

namespace Scoutly

set_option maxRecDepth 100000

/-! ## Python string primitives -/

/-- Whitespace test modelling the Python regex class backslash-s and
`str.strip` (ASCII whitespace plus the common unicode whitespace code points;
inputs in the theorems below use only ASCII whitespace and newlines). -/
def pyIsSpace (c : Char) : Bool :=
  c.toNat ∈ [32, 9, 10, 11, 12, 13, 28, 29, 30, 31, 133, 160, 5760,
    8192, 8193, 8194, 8195, 8196, 8197, 8198, 8199, 8200, 8201, 8202,
    8232, 8233, 8239, 8287, 12288]

/-- Line-break characters recognised by Python `str.splitlines`. -/
def pyIsLineBreak (c : Char) : Bool :=
  c.toNat ∈ [10, 13, 11, 12, 28, 29, 30, 133, 8232, 8233]

/-- Python `str.strip()` on a list of characters. -/
def pyStrip (cs : List Char) : List Char :=
  ((cs.dropWhile pyIsSpace).reverse.dropWhile pyIsSpace).reverse

/-- ASCII lower-casing (models Python `str.lower` on the inputs relevant to
the help-keyword comparison, which are ASCII or unaffected CJK strings). -/
def pyLowerChar (c : Char) : Char :=
  if 'A' ≤ c ∧ c ≤ 'Z' then Char.ofNat (c.toNat + 32) else c

/-- Python `str.lower` (ASCII model). -/
def pyLower (cs : List Char) : List Char := cs.map pyLowerChar

/-- Python `str.upper` (ASCII model); used for `domain_label.upper()`. -/
def pyUpperChar (c : Char) : Char :=
  if 'a' ≤ c ∧ c ≤ 'z' then Char.ofNat (c.toNat - 32) else c

/-- Python `str.upper` (ASCII model). -/
def pyUpper (s : String) : String := String.mk (s.toList.map pyUpperChar)

/-- Splits a character list at every character satisfying `p`; the separators
are dropped and empty fragments are kept (Python `re.split` on a character
class). -/
def splitOnP (p : Char → Bool) : List Char → List (List Char)
  | [] => [[]]
  | c :: cs =>
    let r := splitOnP p cs
    if p c then [] :: r
    else
      match r with
      | [] => [[c]]
      | g :: gs => (c :: g) :: gs

/-! ## Markdown summary rendering: src/ui_generator.py, generate_summary_flex.

The two regexes the source applies to the (globally stripped) summary text are
modelled directly:
  title:    re.search  of  caret hash hash backslash-s plus (dot plus) dollar,  MULTILINE
  sections: re.finditer of  caret hash hash hash backslash-s plus (dot plus) dollar,  MULTILINE
Because the whole text is stripped first, a whitespace run inside the text is
always followed by a non-whitespace character, so the greedy whitespace gap
after the heading marker never needs backtracking: the match group is exactly
the text from the first non-whitespace character after the marker to the end
of that line. -/

/-- Matches the level-2 heading pattern at the current position (which the
caller guarantees is a line start).  Returns the heading group and the rest of
the input starting at the end of the match (the line break or end). -/
def matchHeading2 (cs : List Char) : Option (List Char × List Char) :=
  match cs with
  | '#' :: '#' :: c :: rest =>
    if pyIsSpace c then
      let afterWs := List.dropWhile pyIsSpace (c :: rest)
      let heading := List.takeWhile (fun ch => ¬ (ch = '\n')) afterWs
      let rest2 := List.dropWhile (fun ch => ¬ (ch = '\n')) afterWs
      if heading = [] then none else some (heading, rest2)
    else none
  | _ => none

/-- Matches the level-3 heading pattern at the current position, as
`matchHeading2` but with three hash marks. -/
def matchHeading3 (cs : List Char) : Option (List Char × List Char) :=
  match cs with
  | '#' :: '#' :: '#' :: c :: rest =>
    if pyIsSpace c then
      let afterWs := List.dropWhile pyIsSpace (c :: rest)
      let heading := List.takeWhile (fun ch => ¬ (ch = '\n')) afterWs
      let rest2 := List.dropWhile (fun ch => ¬ (ch = '\n')) afterWs
      if heading = [] then none else some (heading, rest2)
    else none
  | _ => none

/-- Leftmost search for the level-2 heading pattern (re.search with the
MULTILINE flag): the pattern may only start at a line start. -/
def findHeading2 : List Char → Bool → Option (List Char)
  | [], _ => none
  | c :: rest, atStart =>
    if atStart then
      match matchHeading2 (c :: rest) with
      | some (h, _) => some h
      | none => findHeading2 rest (c = '\n')
    else findHeading2 rest (c = '\n')

/-- Leftmost search for the level-3 heading pattern, returning the text before
the match, the heading group, and the rest after the match end. -/
def findHeading3 : List Char → Bool → Option (List Char × List Char × List Char)
  | [], _ => none
  | c :: rest, atStart =>
    if atStart then
      match matchHeading3 (c :: rest) with
      | some (h, r) => some ([], h, r)
      | none =>
        (findHeading3 rest (c = '\n')).map (fun t => (c :: t.1, t.2.1, t.2.2))
    else
      (findHeading3 rest (c = '\n')).map (fun t => (c :: t.1, t.2.1, t.2.2))

theorem matchHeading3_rest_length {cs h r : List Char}
    (hm : matchHeading3 cs = some (h, r)) : r.length < cs.length := by
  unfold matchHeading3 at hm
  split at hm
  next c rest =>
    split at hm
    · simp only at hm
      split at hm
      · exact absurd hm (by simp)
      · simp only [Option.some.injEq, Prod.mk.injEq] at hm
        obtain ⟨-, hr⟩ := hm
        subst hr
        calc (List.dropWhile (fun ch => ¬ (ch = '\n'))
                (List.dropWhile pyIsSpace (c :: rest))).length
            ≤ (List.dropWhile pyIsSpace (c :: rest)).length :=
              (List.dropWhile_sublist _).length_le
          _ ≤ (c :: rest).length := (List.dropWhile_sublist _).length_le
          _ < ('#' :: '#' :: '#' :: c :: rest).length := by simp
    · exact absurd hm (by simp)
  next => exact absurd hm (by simp)

theorem findHeading3_rest_length {cs pre h r : List Char} {b : Bool}
    (hf : findHeading3 cs b = some (pre, h, r)) : r.length < cs.length := by
  induction cs generalizing b pre with
  | nil => simp [findHeading3] at hf
  | cons c rest ih =>
    unfold findHeading3 at hf
    split at hf
    · cases hm : matchHeading3 (c :: rest) with
      | some p =>
        obtain ⟨h1, r1⟩ := p
        rw [hm] at hf
        simp only [Option.some.injEq, Prod.mk.injEq] at hf
        obtain ⟨-, -, hr⟩ := hf
        subst hr
        exact matchHeading3_rest_length hm
      | none =>
        rw [hm, Option.map_eq_some'] at hf
        obtain ⟨t, ht, heq⟩ := hf
        obtain ⟨p1, h1, r1⟩ := t
        simp only [Prod.mk.injEq] at heq
        obtain ⟨-, hh, hr⟩ := heq
        subst hh; subst hr
        exact Nat.lt_succ_of_lt (ih ht)
    · rw [Option.map_eq_some'] at hf
      obtain ⟨t, ht, heq⟩ := hf
      obtain ⟨p1, h1, r1⟩ := t
      simp only [Prod.mk.injEq] at heq
      obtain ⟨-, hh, hr⟩ := heq
      subst hh; subst hr
      exact Nat.lt_succ_of_lt (ih ht)

/-- Collects the (heading, body text) pairs produced by re.finditer: the body
of a section runs from the end of its heading match to the start of the next
heading match (or the end of the text).  The fuel only bounds the recursion
so that the definition computes by iota reduction; by
`findHeading3_rest_length` every step strictly shrinks the text, so any fuel
above the text length is adequate, which `gatherSectionsF_fuel` proves. -/
def gatherSectionsF : Nat → List Char → List Char → List (List Char × List Char)
  | 0, h, cs => [(h, cs)]
  | fuel + 1, h, cs =>
    match findHeading3 cs false with
    | none => [(h, cs)]
    | some (pre, h2, rest) => (h, pre) :: gatherSectionsF fuel h2 rest

/-- `gatherSectionsF` with adequate fuel. -/
def gatherSections (h : List Char) (cs : List Char) :
    List (List Char × List Char) :=
  gatherSectionsF (cs.length + 1) h cs

theorem gatherSectionsF_fuel : ∀ (f1 f2 : Nat) (h cs : List Char),
    cs.length < f1 → cs.length < f2 →
    gatherSectionsF f1 h cs = gatherSectionsF f2 h cs := by
  intro f1
  induction f1 with
  | zero => intro f2 h cs h1 h2; omega
  | succ f1 ih =>
    intro f2 h cs h1 h2
    cases f2 with
    | zero => omega
    | succ f2 =>
      show (match findHeading3 cs false with
        | none => [(h, cs)]
        | some (pre, h2, rest) => (h, pre) :: gatherSectionsF f1 h2 rest) =
        (match findHeading3 cs false with
        | none => [(h, cs)]
        | some (pre, h2, rest) => (h, pre) :: gatherSectionsF f2 h2 rest)
      cases hf : findHeading3 cs false with
      | none => rfl
      | some t =>
        obtain ⟨pre, h3, rest⟩ := t
        have hlt := findHeading3_rest_length hf
        dsimp only
        rw [ih f2 h3 rest (by omega) (by omega)]

/-- Raw (heading group, body slice) pairs of the summary text, in order. -/
def summarySections (text : List Char) : List (List Char × List Char) :=
  match findHeading3 text true with
  | none => []
  | some (_, h, rest) => gatherSections h rest

/-- Finds the lazy closing double-star of a bold span: the shortest nonempty
run of non-newline characters followed by a double star.  Models the
non-greedy group in re.sub of star star (dot plus question) star star. -/
def findClose2 : List Char → Option (List Char × List Char)
  | [] => none
  | a :: cs =>
    if a = '\n' then none
    else if cs.take 2 = ['*', '*'] then some ([a], cs.drop 2)
    else
      match findClose2 cs with
      | some (inner, rest) => some (a :: inner, rest)
      | none => none

theorem findClose2_rest_length {cs inner rest : List Char}
    (h : findClose2 cs = some (inner, rest)) : rest.length < cs.length := by
  induction cs generalizing inner with
  | nil => simp [findClose2] at h
  | cons a cs ih =>
    unfold findClose2 at h
    split at h
    · exact absurd h (by simp)
    · split at h
      · simp only [Option.some.injEq, Prod.mk.injEq] at h
        obtain ⟨-, hr⟩ := h
        subst hr
        have hle : (cs.drop 2).length ≤ cs.length := by
          rw [List.length_drop]; omega
        simpa using Nat.lt_succ_of_le hle
      · cases hf : findClose2 cs with
        | none => rw [hf] at h; exact absurd h (by simp)
        | some p =>
          obtain ⟨i1, r1⟩ := p
          rw [hf] at h
          simp only [Option.some.injEq, Prod.mk.injEq] at h
          obtain ⟨-, hr⟩ := h
          subst hr
          exact Nat.lt_succ_of_lt (ih hf)

/-- Finds the lazy closing single star of an italic span. -/
def findClose1 : List Char → Option (List Char × List Char)
  | [] => none
  | a :: cs =>
    if a = '\n' then none
    else if cs.take 1 = ['*'] then some ([a], cs.drop 1)
    else
      match findClose1 cs with
      | some (inner, rest) => some (a :: inner, rest)
      | none => none

theorem findClose1_rest_length {cs inner rest : List Char}
    (h : findClose1 cs = some (inner, rest)) : rest.length < cs.length := by
  induction cs generalizing inner with
  | nil => simp [findClose1] at h
  | cons a cs ih =>
    unfold findClose1 at h
    split at h
    · exact absurd h (by simp)
    · split at h
      · simp only [Option.some.injEq, Prod.mk.injEq] at h
        obtain ⟨-, hr⟩ := h
        subst hr
        have hle : (cs.drop 1).length ≤ cs.length := by
          rw [List.length_drop]; omega
        simpa using Nat.lt_succ_of_le hle
      · cases hf : findClose1 cs with
        | none => rw [hf] at h; exact absurd h (by simp)
        | some p =>
          obtain ⟨i1, r1⟩ := p
          rw [hf] at h
          simp only [Option.some.injEq, Prod.mk.injEq] at h
          obtain ⟨-, hr⟩ := h
          subst hr
          exact Nat.lt_succ_of_lt (ih hf)

/-- Models re.sub removing bold markers: every lazy double-star span is
replaced by its inner text; unmatched stars are kept.  Fuel as in
`gatherSectionsF`: by `findClose2_rest_length` every step strictly shrinks
the text, so any fuel above the text length is adequate (`subBoldF_fuel`). -/
def subBoldF : Nat → List Char → List Char
  | 0, cs => cs
  | _ + 1, [] => []
  | fuel + 1, c :: cs =>
    if c = '*' ∧ cs.take 1 = ['*'] then
      match findClose2 (cs.drop 1) with
      | some (inner, rest) => inner ++ subBoldF fuel rest
      | none => '*' :: subBoldF fuel cs
    else c :: subBoldF fuel cs

/-- `subBoldF` with adequate fuel. -/
def subBold (cs : List Char) : List Char := subBoldF (cs.length + 1) cs

theorem subBoldF_fuel : ∀ (f1 f2 : Nat) (cs : List Char),
    cs.length < f1 → cs.length < f2 → subBoldF f1 cs = subBoldF f2 cs := by
  intro f1
  induction f1 with
  | zero => intro f2 cs h1 h2; omega
  | succ f1 ih =>
    intro f2 cs h1 h2
    cases f2 with
    | zero => omega
    | succ f2 =>
      cases cs with
      | nil => rfl
      | cons a cs =>
        show (if a = '*' ∧ cs.take 1 = ['*'] then
            match findClose2 (cs.drop 1) with
            | some (inner, rest) => inner ++ subBoldF f1 rest
            | none => '*' :: subBoldF f1 cs
          else a :: subBoldF f1 cs) =
          (if a = '*' ∧ cs.take 1 = ['*'] then
            match findClose2 (cs.drop 1) with
            | some (inner, rest) => inner ++ subBoldF f2 rest
            | none => '*' :: subBoldF f2 cs
          else a :: subBoldF f2 cs)
        simp only [List.length_cons] at h1 h2
        have hcs : subBoldF f1 cs = subBoldF f2 cs := ih f2 cs (by omega) (by omega)
        split
        · cases hf : findClose2 (cs.drop 1) with
          | none => dsimp only; rw [hcs]
          | some p =>
            obtain ⟨inner, rest⟩ := p
            have hlt := findClose2_rest_length hf
            have hd : (cs.drop 1).length ≤ cs.length := by
              rw [List.length_drop]; omega
            dsimp only
            rw [ih f2 rest (by omega) (by omega)]
        · rw [hcs]

/-- Models re.sub removing italic markers: every lazy single-star span is
replaced by its inner text; unmatched stars are kept.  Fuel as in
`subBoldF`, adequate by `findClose1_rest_length` (`subItalicF_fuel`). -/
def subItalicF : Nat → List Char → List Char
  | 0, cs => cs
  | _ + 1, [] => []
  | fuel + 1, c :: cs =>
    if c = '*' then
      match findClose1 cs with
      | some (inner, rest) => inner ++ subItalicF fuel rest
      | none => '*' :: subItalicF fuel cs
    else c :: subItalicF fuel cs

/-- `subItalicF` with adequate fuel. -/
def subItalic (cs : List Char) : List Char := subItalicF (cs.length + 1) cs

theorem subItalicF_fuel : ∀ (f1 f2 : Nat) (cs : List Char),
    cs.length < f1 → cs.length < f2 → subItalicF f1 cs = subItalicF f2 cs := by
  intro f1
  induction f1 with
  | zero => intro f2 cs h1 h2; omega
  | succ f1 ih =>
    intro f2 cs h1 h2
    cases f2 with
    | zero => omega
    | succ f2 =>
      cases cs with
      | nil => rfl
      | cons a cs =>
        show (if a = '*' then
            match findClose1 cs with
            | some (inner, rest) => inner ++ subItalicF f1 rest
            | none => '*' :: subItalicF f1 cs
          else a :: subItalicF f1 cs) =
          (if a = '*' then
            match findClose1 cs with
            | some (inner, rest) => inner ++ subItalicF f2 rest
            | none => '*' :: subItalicF f2 cs
          else a :: subItalicF f2 cs)
        simp only [List.length_cons] at h1 h2
        have hcs : subItalicF f1 cs = subItalicF f2 cs := ih f2 cs (by omega) (by omega)
        split
        · cases hf : findClose1 cs with
          | none => dsimp only; rw [hcs]
          | some p =>
            obtain ⟨inner, rest⟩ := p
            have hlt := findClose1_rest_length hf
            have hd : cs.length ≤ cs.length := le_refl _
            dsimp only
            rw [ih f2 rest (by omega) (by omega)]
        · rw [hcs]

/-- Splits a stripped nonempty line into bullet fragments: a dash-space line
becomes one verbatim bullet with the prefix dropped; any other line is split
at ideographic or ASCII full stops, the fragments stripped and the empty ones
dropped.  Models the per-line loop of generate_summary_flex. -/
def lineBullets (l : List Char) : List (List Char) :=
  if l.take 2 = ['-', ' '] then [l.drop 2]
  else ((splitOnP (fun c => c = '。' ∨ c = '.') l).map pyStrip).filter
    (fun s => ¬ (s = []))

/-- All bullets of one section body: the body is split into lines, each line
stripped, empty lines dropped, and every remaining line contributes its
fragments in order. -/
def sectionBullets (body : List Char) : List (List Char) :=
  (((splitOnP pyIsLineBreak body).map pyStrip).filter
    (fun l => ¬ (l = []))).flatMap lineBullets

/-- Cleans a raw (heading group, body slice) pair: heading stripped, body
stripped and emphasis-erased; dropped when the resulting body is empty. -/
def sectionClean (hb : List Char × List Char) :
    Option (List Char × List Char) :=
  let body := subItalic (subBold (pyStrip hb.2))
  if body = [] then none else some (pyStrip hb.1, body)

/-- State machine form of re.sub removing every run of hash marks together
with the whitespace run following it: the flag records that the scan stands
right after a hash run (possibly inside its trailing whitespace), where
whitespace is consumed; a new hash always restarts a match, exactly as the
leftmost-scan of re.sub does. -/
def stripHashWsGo (afterHashes : Bool) : List Char → List Char
  | [] => []
  | c :: cs =>
    if c = '#' then stripHashWsGo true cs
    else if afterHashes ∧ pyIsSpace c then stripHashWsGo true cs
    else c :: stripHashWsGo false cs

/-- Models the final fallback cleaning: re.sub removing every run of hash
marks together with the whitespace run following it, then removing every
star. -/
def stripHashWs (cs : List Char) : List Char := stripHashWsGo false cs

/-- The fallback text of generate_summary_flex: heading markers and stars
removed from the stripped raw text. -/
def cleanedFallback (text : List Char) : List Char :=
  (stripHashWs text).filter (fun c => ¬ (c = '*'))

/-- One rendered summary section: its heading and its bullet texts. -/
structure SummarySec where
  heading : String
  bullets : List String
deriving DecidableEq, Repr

/-- One block of the rendered summary body: a headed section (the source
emits the heading component even when the section produced no bullets) or the
single fallback text block. -/
inductive SummaryBlock where
  | sec (s : SummarySec)
  | fallbackText (cleaned : String)
deriving DecidableEq, Repr

/-- The structured content of the Flex message built by generate_summary_flex:
the header title and the ordered body blocks (separator components between
sections are presentational and not modelled). -/
structure SummaryFlex where
  title : String
  blocks : List SummaryBlock
deriving DecidableEq, Repr

/-- Models src/ui_generator.py generate_summary_flex: strips the input, takes
the title from the first level-2 heading match (placeholder when absent),
splits the text at level-3 heading matches into sections, erases emphasis in
each body, keeps sections with nonempty bodies, renders each kept section as
its heading plus per-line bullets, and falls back to a single cleaned raw-text
block when no section was kept. -/
def generate_summary_flex (summary_text : String) : SummaryFlex :=
  let text := pyStrip summary_text.toList
  let title :=
    match findHeading2 text true with
    | some h => String.mk (pyStrip h)
    | none => "Deep Dive Analysis"
  let secs := (summarySections text).filterMap sectionClean
  let rendered := secs.map (fun hb =>
    SummaryBlock.sec ⟨String.mk hb.1, (sectionBullets hb.2).map String.mk⟩)
  let blocks :=
    if rendered = [] then [SummaryBlock.fallbackText (String.mk (cleanedFallback text))]
    else rendered
  ⟨title, blocks⟩

/-! ## Byte-level model of urllib.parse quoting.

Python `urlencode` encodes each key and value with `quote_plus` over its UTF-8
bytes, and `parse_qs` splits on the ampersand, partitions each field at its
first equals sign, and percent-decodes.  Strings are represented here by their
UTF-8 byte sequences (lists of naturals below 256), which is exactly the level
at which quote_plus and unquote_plus operate. -/

/-- Bytes never quoted by urllib.parse.quote: ASCII letters, digits, and the
four marks underscore, dot, dash, tilde. -/
def isSafeByte (b : Nat) : Bool :=
  (65 ≤ b ∧ b ≤ 90) ∨ (97 ≤ b ∧ b ≤ 122) ∨ (48 ≤ b ∧ b ≤ 57) ∨
  b = 95 ∨ b = 46 ∨ b = 45 ∨ b = 126

/-- Uppercase hexadecimal digit byte for a value below 16. -/
def hexDigitByte (n : Nat) : Nat :=
  if n < 10 then 48 + n else 55 + n

/-- Encoding of one byte under quote_plus: safe bytes kept, the space byte
becomes a plus sign, everything else becomes a percent escape. -/
def quoteByte (b : Nat) : List Nat :=
  if isSafeByte b then [b]
  else if b = 32 then [43]
  else [37, hexDigitByte (b / 16), hexDigitByte (b % 16)]

/-- urllib.parse.quote_plus over a byte string. -/
def quotePlus : List Nat → List Nat
  | [] => []
  | b :: bs => quoteByte b ++ quotePlus bs

/-- Value of one hexadecimal digit byte, if it is one. -/
def hexVal (c : Nat) : Option Nat :=
  if 48 ≤ c ∧ c ≤ 57 then some (c - 48)
  else if 65 ≤ c ∧ c ≤ 70 then some (c - 55)
  else if 97 ≤ c ∧ c ≤ 102 then some (c - 87)
  else none

/-- urllib.parse.unquote_plus over a byte string: plus signs become spaces,
valid percent escapes are decoded, invalid ones are kept literally. -/
def unquotePlus : List Nat → List Nat
  | [] => []
  | c :: rest =>
    if c = 43 then 32 :: unquotePlus rest
    else if c = 37 then
      match rest with
      | h :: l :: rest2 =>
        match hexVal h, hexVal l with
        | some hv, some lv => (hv * 16 + lv) :: unquotePlus rest2
        | _, _ => 37 :: unquotePlus (h :: l :: rest2)
      | other => 37 :: unquotePlus other
    else c :: unquotePlus rest
termination_by bs => bs.length
decreasing_by all_goals (simp only [List.length_cons]; omega)

/-- Splits a byte string at every occurrence of the separator byte; empty
fragments are kept (Python str.split with a one-byte separator). -/
def splitOnByte (sep : Nat) : List Nat → List (List Nat)
  | [] => [[]]
  | c :: cs =>
    let r := splitOnByte sep cs
    if c = sep then [] :: r
    else
      match r with
      | [] => [[c]]
      | g :: gs => (c :: g) :: gs

/-- Partition at the first equals byte: the part before it and the part after
it, or nothing when the field contains no equals byte. -/
def partitionEq : List Nat → Option (List Nat × List Nat)
  | [] => none
  | c :: rest =>
    if c = 61 then some ([], rest)
    else (partitionEq rest).map (fun p => (c :: p.1, p.2))

/-- Processing of a single ampersand-separated field by parse_qsl with the
default options: empty fields, fields without an equals sign and fields with
an empty encoded value are dropped; name and value are percent-decoded. -/
def parseField (field : List Nat) : Option (List Nat × List Nat) :=
  if field = [] then none
  else
    match partitionEq field with
    | none => none
    | some (n, v) =>
      if v = [] then none else some (unquotePlus n, unquotePlus v)

/-- Models urllib.parse.parse_qsl with the default options, pairs kept in
order. -/
def parseQSL (qs : List Nat) : List (List Nat × List Nat) :=
  (splitOnByte 38 qs).filterMap parseField

/-- First value recorded for a key (parse_qs collects values per key in
order; the handler takes element zero of each list). -/
def firstValue (key : List Nat) (pairs : List (List Nat × List Nat)) :
    Option (List Nat) :=
  (pairs.find? (fun p => p.1 = key)).map (fun p => p.2)

/-- UTF-8 bytes of one code point (the argument is a valid unicode scalar
value, as carried by a Lean character). -/
def utf8Char (n : Nat) : List Nat :=
  if n < 128 then [n]
  else if n < 2048 then [192 + n / 64, 128 + n % 64]
  else if n < 65536 then [224 + n / 4096, 128 + (n / 64) % 64, 128 + n % 64]
  else [240 + n / 262144, 128 + (n / 4096) % 64, 128 + (n / 64) % 64,
    128 + n % 64]

/-- UTF-8 encoding of a character list. -/
def utf8List : List Char → List Nat
  | [] => []
  | c :: cs => utf8Char c.toNat ++ utf8List cs

/-- UTF-8 encoding of a string. -/
def utf8Bytes (s : String) : List Nat := utf8List s.toList

/-- Models urllib.parse.urlencode on an ordered dict of string pairs: each
key and value quoted with quote_plus, joined with equals signs and
ampersands. -/
def urlencodePairs : List (List Nat × List Nat) → List Nat
  | [] => []
  | [(k, v)] => quotePlus k ++ 61 :: quotePlus v
  | (k, v) :: rest => quotePlus k ++ 61 :: quotePlus v ++ 38 :: urlencodePairs rest

/-- The postback payload built at src/ui_generator.py line 31:
urlencode of action=summarize, domain=domain_key, url=url. -/
def postbackDataBytes (domainKey url : String) : List Nat :=
  urlencodePairs [(utf8Bytes "action", utf8Bytes "summarize"),
    (utf8Bytes "domain", utf8Bytes domainKey),
    (utf8Bytes "url", utf8Bytes url)]

/-- Models the decoding side of src/app.py handle_postback: parse_qs of the
postback data, first value per key, and when the action is summarize, the
target url (default empty) and domain key (default aiops). -/
def handle_postback_decode (data : List Nat) : Option (List Nat × List Nat) :=
  let params := parseQSL data
  if firstValue (utf8Bytes "action") params = some (utf8Bytes "summarize") then
    some ((firstValue (utf8Bytes "url") params).getD [],
      (firstValue (utf8Bytes "domain") params).getD (utf8Bytes "aiops"))
  else none

/-! ## Round-trip lemmas for the quoting layer -/

theorem isSafeByte_ne {b : Nat} (h : isSafeByte b = true) :
    b ≠ 43 ∧ b ≠ 37 ∧ b ≠ 38 ∧ b ≠ 61 ∧ b ≠ 32 := by
  simp only [isSafeByte, decide_eq_true_eq] at h
  omega

theorem hexVal_hexDigitByte : ∀ n, n < 16 → hexVal (hexDigitByte n) = some n := by
  decide

theorem unquotePlus_nil : unquotePlus [] = [] := by
  rw [unquotePlus.eq_def]

theorem unquotePlus_cons_other {c : Nat} (rest : List Nat) (h43 : c ≠ 43)
    (h37 : c ≠ 37) : unquotePlus (c :: rest) = c :: unquotePlus rest := by
  conv_lhs => rw [unquotePlus.eq_def]
  simp only [if_neg h43, if_neg h37]

theorem unquotePlus_cons_plus (rest : List Nat) :
    unquotePlus (43 :: rest) = 32 :: unquotePlus rest := by
  conv_lhs => rw [unquotePlus.eq_def]
  rfl

theorem unquotePlus_cons_esc {h l : Nat} (rest : List Nat) {hv lv : Nat}
    (hh : hexVal h = some hv) (hl : hexVal l = some lv) :
    unquotePlus (37 :: h :: l :: rest) = (hv * 16 + lv) :: unquotePlus rest := by
  conv_lhs => rw [unquotePlus.eq_def]
  simp only [hh, hl]
  norm_num

theorem unquotePlus_quoteByte (b : Nat) (hb : b < 256) (s : List Nat) :
    unquotePlus (quoteByte b ++ s) = b :: unquotePlus s := by
  unfold quoteByte
  split
  next hsafe =>
    obtain ⟨h43, h37, -, -, -⟩ := isSafeByte_ne hsafe
    simp only [List.cons_append, List.nil_append]
    exact unquotePlus_cons_other s h43 h37
  next =>
    split
    next hsp =>
      subst hsp
      simp only [List.cons_append, List.nil_append]
      exact unquotePlus_cons_plus s
    next =>
      simp only [List.cons_append, List.nil_append]
      rw [unquotePlus_cons_esc s (hexVal_hexDigitByte (b / 16) (by omega))
        (hexVal_hexDigitByte (b % 16) (by omega))]
      congr 1
      omega

theorem unquotePlus_quotePlus (s : List Nat) (h : ∀ b ∈ s, b < 256) :
    unquotePlus (quotePlus s) = s := by
  induction s with
  | nil => exact unquotePlus_nil
  | cons b bs ih =>
    have hb : b < 256 := h b (List.mem_cons_self b bs)
    have hbs : ∀ x ∈ bs, x < 256 := fun x hx => h x (List.mem_cons_of_mem b hx)
    simp only [quotePlus]
    rw [unquotePlus_quoteByte b hb, ih hbs]

theorem quoteByte_mem {b x : Nat} (hb : b < 256) (hx : x ∈ quoteByte b) :
    x ≠ 38 ∧ x ≠ 61 := by
  unfold quoteByte at hx
  split at hx
  next hsafe =>
    simp only [List.mem_singleton] at hx
    subst hx
    exact ⟨(isSafeByte_ne hsafe).2.2.1, (isSafeByte_ne hsafe).2.2.2.1⟩
  next =>
    split at hx
    next =>
      simp only [List.mem_singleton] at hx
      omega
    next =>
      simp only [List.mem_cons, List.mem_singleton] at hx
      have h16a : b / 16 < 16 := by omega
      have h16b : b % 16 < 16 := by omega
      rcases hx with h | h | h | h
      · omega
      · subst h
        unfold hexDigitByte
        split <;> omega
      · subst h
        unfold hexDigitByte
        split <;> omega
      · simp at h

theorem quotePlus_mem {s : List Nat} {x : Nat} (hs : ∀ b ∈ s, b < 256)
    (hx : x ∈ quotePlus s) : x ≠ 38 ∧ x ≠ 61 := by
  induction s with
  | nil => simp [quotePlus] at hx
  | cons b bs ih =>
    simp only [quotePlus, List.mem_append] at hx
    rcases hx with h | h
    · exact quoteByte_mem (hs b (List.mem_cons_self b bs)) h
    · exact ih (fun y hy => hs y (List.mem_cons_of_mem b hy)) h

theorem quotePlus_ne_nil {s : List Nat} (h : s ≠ []) : quotePlus s ≠ [] := by
  cases s with
  | nil => exact absurd rfl h
  | cons b bs =>
    simp only [quotePlus]
    unfold quoteByte
    split
    · simp
    · split
      · simp
      · simp

theorem splitOnByte_cons (sep c : Nat) (cs : List Nat) :
    splitOnByte sep (c :: cs) =
      if c = sep then [] :: splitOnByte sep cs
      else
        match splitOnByte sep cs with
        | [] => [[c]]
        | g :: gs => (c :: g) :: gs := rfl

theorem splitOnByte_sep {sep : Nat} {A : List Nat} (B : List Nat)
    (hA : ∀ x ∈ A, x ≠ sep) :
    splitOnByte sep (A ++ sep :: B) = A :: splitOnByte sep B := by
  induction A with
  | nil => simp [splitOnByte]
  | cons a as ih =>
    have ha : a ≠ sep := hA a (List.mem_cons_self a as)
    have has : ∀ x ∈ as, x ≠ sep := fun x hx => hA x (List.mem_cons_of_mem a hx)
    rw [List.cons_append, splitOnByte_cons, if_neg ha, ih has]

theorem splitOnByte_no_sep {sep : Nat} {A : List Nat}
    (hA : ∀ x ∈ A, x ≠ sep) : splitOnByte sep A = [A] := by
  induction A with
  | nil => rfl
  | cons a as ih =>
    have ha : a ≠ sep := hA a (List.mem_cons_self a as)
    have has : ∀ x ∈ as, x ≠ sep := fun x hx => hA x (List.mem_cons_of_mem a hx)
    rw [splitOnByte_cons, if_neg ha, ih has]

theorem partitionEq_cons (c : Nat) (cs : List Nat) :
    partitionEq (c :: cs) =
      if c = 61 then some ([], cs)
      else (partitionEq cs).map (fun p => (c :: p.1, p.2)) := rfl

theorem partitionEq_append {K : List Nat} (V : List Nat)
    (hK : ∀ x ∈ K, x ≠ 61) : partitionEq (K ++ 61 :: V) = some (K, V) := by
  induction K with
  | nil => simp [partitionEq]
  | cons k ks ih =>
    have hk : k ≠ 61 := hK k (List.mem_cons_self k ks)
    have hks : ∀ x ∈ ks, x ≠ 61 := fun x hx => hK x (List.mem_cons_of_mem k hx)
    rw [List.cons_append, partitionEq_cons, if_neg hk, ih hks]
    rfl

theorem utf8Char_lt_256 {n : Nat} (hn : n < 1114112) :
    ∀ b ∈ utf8Char n, b < 256 := by
  intro b hb
  unfold utf8Char at hb
  split at hb
  · simp only [List.mem_singleton] at hb; omega
  · split at hb
    · simp only [List.mem_cons, List.mem_singleton, List.not_mem_nil, or_false] at hb
      rcases hb with h | h <;> omega
    · split at hb
      · simp only [List.mem_cons, List.mem_singleton, List.not_mem_nil, or_false] at hb
        rcases hb with h | h | h <;> omega
      · simp only [List.mem_cons, List.mem_singleton, List.not_mem_nil, or_false] at hb
        rcases hb with h | h | h | h <;> omega

theorem char_toNat_lt (c : Char) : c.toNat < 1114112 := by
  have := c.valid
  rcases this with h | h
  · simp [Char.toNat]; omega
  · simp [Char.toNat]; omega

theorem utf8List_lt_256 (cs : List Char) : ∀ b ∈ utf8List cs, b < 256 := by
  induction cs with
  | nil => simp [utf8List]
  | cons c cs ih =>
    intro b hb
    simp only [utf8List, List.mem_append] at hb
    rcases hb with h | h
    · exact utf8Char_lt_256 (char_toNat_lt c) b h
    · exact ih b h

theorem utf8Char_ne_nil (n : Nat) : utf8Char n ≠ [] := by
  unfold utf8Char
  split
  · simp
  · split
    · simp
    · split
      · simp
      · simp

theorem utf8List_ne_nil {cs : List Char} (h : cs ≠ []) : utf8List cs ≠ [] := by
  cases cs with
  | nil => exact absurd rfl h
  | cons c cs =>
    simp only [utf8List]
    intro hcontra
    exact utf8Char_ne_nil c.toNat (List.append_eq_nil.mp hcontra).1

theorem utf8Bytes_lt_256 (s : String) : ∀ b ∈ utf8Bytes s, b < 256 :=
  utf8List_lt_256 s.toList

theorem string_toList_ne_nil {s : String} (h : s ≠ "") : s.toList ≠ [] := by
  intro hc
  apply h
  cases s with
  | mk data =>
    simp only [String.toList] at hc
    simp [hc]

theorem utf8Bytes_ne_nil {s : String} (h : s ≠ "") : utf8Bytes s ≠ [] :=
  utf8List_ne_nil (string_toList_ne_nil h)

theorem encodedField_no38 {k v : List Nat} (hk : ∀ b ∈ k, b < 256)
    (hv : ∀ b ∈ v, b < 256) :
    ∀ x ∈ quotePlus k ++ 61 :: quotePlus v, x ≠ 38 := by
  intro x hx
  simp only [List.mem_append, List.mem_cons] at hx
  rcases hx with h | h | h
  · exact (quotePlus_mem hk h).1
  · omega
  · exact (quotePlus_mem hv h).1

theorem parseField_encoded {k v : List Nat} (hk : ∀ b ∈ k, b < 256)
    (hv : ∀ b ∈ v, b < 256) (hv0 : v ≠ []) :
    parseField (quotePlus k ++ 61 :: quotePlus v) = some (k, v) := by
  unfold parseField
  rw [if_neg (by simp : ¬ (quotePlus k ++ 61 :: quotePlus v = []))]
  rw [partitionEq_append _ (fun x hx => (quotePlus_mem hk hx).2)]
  simp only
  rw [if_neg (quotePlus_ne_nil hv0)]
  rw [unquotePlus_quotePlus k hk, unquotePlus_quotePlus v hv]

/-- Hypothesis bundle for `parseQSL_urlencode`: every key and value is a byte
string and every value is nonempty. -/
def GoodPairs (ps : List (List Nat × List Nat)) : Prop :=
  ∀ p ∈ ps, (∀ b ∈ p.1, b < 256) ∧ (∀ b ∈ p.2, b < 256) ∧ p.2 ≠ []

theorem parseQSL_urlencode (ps : List (List Nat × List Nat)) (h : GoodPairs ps) :
    parseQSL (urlencodePairs ps) = ps := by
  induction ps with
  | nil => rfl
  | cons p rest ih =>
    obtain ⟨k, v⟩ := p
    obtain ⟨hk, hv, hv0⟩ := h (k, v) (List.mem_cons_self _ _)
    have hrest : GoodPairs rest := fun q hq => h q (List.mem_cons_of_mem _ hq)
    cases rest with
    | nil =>
      show parseQSL (quotePlus k ++ 61 :: quotePlus v) = [(k, v)]
      unfold parseQSL
      rw [splitOnByte_no_sep (encodedField_no38 hk hv)]
      simp only [List.filterMap_cons, List.filterMap_nil,
        parseField_encoded hk hv hv0]
    | cons q qs =>
      show parseQSL ((quotePlus k ++ 61 :: quotePlus v) ++ 38 ::
        urlencodePairs (q :: qs)) = (k, v) :: q :: qs
      unfold parseQSL
      rw [splitOnByte_sep _ (encodedField_no38 hk hv)]
      simp only [List.filterMap_cons, parseField_encoded hk hv hv0]
      have := ih hrest
      unfold parseQSL at this
      rw [this]

/-- Round trip for the deep-dive action token (claim C2): encoding the action,
domain key and url with urlencode at ui_generator line 31 and decoding with
parse_qs as in handle_postback recovers the action summarize, the url and the
domain key exactly, for every nonempty domain key and url. -/
theorem postback_roundtrip (domainKey url : String)
    (hd : domainKey ≠ "") (hu : url ≠ "") :
    handle_postback_decode (postbackDataBytes domainKey url) =
      some (utf8Bytes url, utf8Bytes domainKey) := by
  unfold handle_postback_decode postbackDataBytes
  have hgood : GoodPairs [(utf8Bytes "action", utf8Bytes "summarize"),
      (utf8Bytes "domain", utf8Bytes domainKey),
      (utf8Bytes "url", utf8Bytes url)] := by
    intro p hp
    simp only [List.mem_cons, List.mem_singleton, List.not_mem_nil, or_false] at hp
    rcases hp with h | h | h <;> subst h
    · exact ⟨utf8Bytes_lt_256 _, utf8Bytes_lt_256 _, utf8Bytes_ne_nil (by decide)⟩
    · exact ⟨utf8Bytes_lt_256 _, utf8Bytes_lt_256 _, utf8Bytes_ne_nil hd⟩
    · exact ⟨utf8Bytes_lt_256 _, utf8Bytes_lt_256 _, utf8Bytes_ne_nil hu⟩
  rw [parseQSL_urlencode _ hgood]
  rw [if_pos]
  · simp only [firstValue, List.find?]
    norm_num [(by decide : ¬ (utf8Bytes "action" = utf8Bytes "url")),
      (by decide : ¬ (utf8Bytes "domain" = utf8Bytes "url")),
      (by decide : ¬ (utf8Bytes "action" = utf8Bytes "domain")),
      (by decide : utf8Bytes "url" = utf8Bytes "url"),
      (by decide : utf8Bytes "domain" = utf8Bytes "domain")]
  · simp [firstValue, List.find?]

/-- Witness for `postback_roundtrip` at the concrete example of the spec: the
url contains both equals and ampersand characters. -/
theorem postback_roundtrip_witness :
    handle_postback_decode (postbackDataBytes "aiops" "https://x.com/a?b=c&d=e") =
      some (utf8Bytes "https://x.com/a?b=c&d=e", utf8Bytes "aiops") :=
  postback_roundtrip "aiops" "https://x.com/a?b=c&d=e" (by decide) (by decide)

/-! ## JSON values and a model of json.loads.

The renderer and the intent parser both run Python json.loads on untrusted
strings.  The parser below models the stdlib decoder on standard JSON
documents, including the Python extensions NaN and Infinity; object fields
keep their textual order (lookups take the last binding, matching dict
construction).  The fuel argument strictly exceeds any possible recursion
depth for the given input, so it never causes a spurious failure.  Escaped
lone surrogates, which the Python decoder would keep, are rejected by the
model; no theorem below depends on such inputs. -/

inductive JValue where
  | null
  | bool (b : Bool)
  | num (lex : String)
  | str (s : String)
  | arr (items : List JValue)
  | obj (fields : List (String × JValue))

/-- JSON insignificant whitespace (space, tab, newline, carriage return). -/
def jsonWs (c : Char) : Bool :=
  c = ' ' ∨ c = '\t' ∨ c = '\n' ∨ c = '\r'

/-- The opening curly brace character. -/
def lBrace : Char := Char.ofNat 123

/-- The closing curly brace character. -/
def rBrace : Char := Char.ofNat 125

/-- Hexadecimal digit value of a character. -/
def hexCharVal (c : Char) : Option Nat :=
  if '0' ≤ c ∧ c ≤ '9' then some (c.toNat - 48)
  else if 'A' ≤ c ∧ c ≤ 'F' then some (c.toNat - 55)
  else if 'a' ≤ c ∧ c ≤ 'f' then some (c.toNat - 87)
  else none

/-- Reads exactly four hexadecimal digits. -/
def parseHex4 : List Char → Option (Nat × List Char)
  | a :: b :: c :: d :: rest =>
    match hexCharVal a, hexCharVal b, hexCharVal c, hexCharVal d with
    | some x, some y, some z, some w => some (x * 4096 + y * 256 + z * 16 + w, rest)
    | _, _, _, _ => none
  | _ => none

/-- ASCII digit test. -/
def isDigitChar (c : Char) : Bool := '0' ≤ c ∧ c ≤ '9'

/-- Body of a JSON string after the opening quote: processes escapes
(including surrogate pairs) and rejects raw control characters, as the strict
stdlib decoder does. -/
def parseStringBody (fuel : Nat) (cs : List Char) :
    Option (List Char × List Char) :=
  match fuel with
  | 0 => none
  | fuel + 1 =>
    match cs with
    | [] => none
    | c :: rest =>
      if c = '"' then some ([], rest)
      else if c = '\\' then
        match rest with
        | [] => none
        | e :: rest2 =>
          if e = '"' ∨ e = '\\' ∨ e = '/' then
            (parseStringBody fuel rest2).map (fun p => (e :: p.1, p.2))
          else if e = 'b' then
            (parseStringBody fuel rest2).map (fun p => ('\x08' :: p.1, p.2))
          else if e = 'f' then
            (parseStringBody fuel rest2).map (fun p => ('\x0c' :: p.1, p.2))
          else if e = 'n' then
            (parseStringBody fuel rest2).map (fun p => ('\n' :: p.1, p.2))
          else if e = 'r' then
            (parseStringBody fuel rest2).map (fun p => ('\r' :: p.1, p.2))
          else if e = 't' then
            (parseStringBody fuel rest2).map (fun p => ('\t' :: p.1, p.2))
          else if e = 'u' then
            match parseHex4 rest2 with
            | none => none
            | some (n, rest3) =>
              if 55296 ≤ n ∧ n ≤ 56319 then
                match rest3 with
                | '\\' :: 'u' :: rest4 =>
                  match parseHex4 rest4 with
                  | none => none
                  | some (m, rest5) =>
                    if 56320 ≤ m ∧ m ≤ 57343 then
                      (parseStringBody fuel rest5).map (fun p =>
                        (Char.ofNat (65536 + (n - 55296) * 1024 + (m - 56320)) :: p.1,
                          p.2))
                    else none
                | _ => none
              else if 56320 ≤ n ∧ n ≤ 57343 then none
              else
                (parseStringBody fuel rest3).map (fun p => (Char.ofNat n :: p.1, p.2))
          else none
      else if c.toNat < 32 then none
      else (parseStringBody fuel rest).map (fun p => (c :: p.1, p.2))

/-- JSON number lexeme at the scan position, following the stdlib regex: an
optional minus, an integer part without leading zeros, an optional fraction,
an optional exponent.  A longest-prefix match, as with the regex. -/
def parseNumber (cs : List Char) : Option (String × List Char) :=
  let (sign, cs1) :=
    match cs with
    | '-' :: rest => (['-'], rest)
    | _ => (([] : List Char), cs)
  match cs1 with
  | [] => none
  | c :: _ =>
    if ¬ isDigitChar c then none
    else
      let intPart := if c = '0' then ['0'] else cs1.takeWhile isDigitChar
      let cs2 := cs1.drop intPart.length
      let (frac, cs3) :=
        match cs2 with
        | '.' :: d :: _ =>
          if isDigitChar d then
            ('.' :: (cs2.drop 1).takeWhile isDigitChar,
              (cs2.drop 1).dropWhile isDigitChar)
          else (([] : List Char), cs2)
        | _ => (([] : List Char), cs2)
      let (expPart, cs4) :=
        match cs3 with
        | e :: '+' :: d :: _ =>
          if (e = 'e' ∨ e = 'E') ∧ isDigitChar d then
            (e :: '+' :: (cs3.drop 2).takeWhile isDigitChar,
              (cs3.drop 2).dropWhile isDigitChar)
          else (([] : List Char), cs3)
        | e :: '-' :: d :: _ =>
          if (e = 'e' ∨ e = 'E') ∧ isDigitChar d then
            (e :: '-' :: (cs3.drop 2).takeWhile isDigitChar,
              (cs3.drop 2).dropWhile isDigitChar)
          else (([] : List Char), cs3)
        | e :: d :: _ =>
          if (e = 'e' ∨ e = 'E') ∧ isDigitChar d then
            (e :: (cs3.drop 1).takeWhile isDigitChar,
              (cs3.drop 1).dropWhile isDigitChar)
          else (([] : List Char), cs3)
        | _ => (([] : List Char), cs3)
      some (String.mk (sign ++ intPart ++ frac ++ expPart), cs4)

mutual

/-- One JSON value at the scan position (whitespace already skipped). -/
def parseValue (fuel : Nat) (cs : List Char) : Option (JValue × List Char) :=
  match fuel with
  | 0 => none
  | fuel + 1 =>
    match cs with
    | [] => none
    | 'n' :: 'u' :: 'l' :: 'l' :: rest => some (.null, rest)
    | 't' :: 'r' :: 'u' :: 'e' :: rest => some (.bool true, rest)
    | 'f' :: 'a' :: 'l' :: 's' :: 'e' :: rest => some (.bool false, rest)
    | 'N' :: 'a' :: 'N' :: rest => some (.num "NaN", rest)
    | 'I' :: 'n' :: 'f' :: 'i' :: 'n' :: 'i' :: 't' :: 'y' :: rest =>
      some (.num "Infinity", rest)
    | '-' :: 'I' :: 'n' :: 'f' :: 'i' :: 'n' :: 'i' :: 't' :: 'y' :: rest =>
      some (.num "-Infinity", rest)
    | c :: rest =>
      if c = '"' then
        (parseStringBody fuel rest).map (fun p => (.str (String.mk p.1), p.2))
      else if c = '[' then
        match List.dropWhile jsonWs rest with
        | ']' :: r2 => some (.arr [], r2)
        | r1 => (parseItems fuel r1).map (fun p => (.arr p.1, p.2))
      else if c = lBrace then
        match List.dropWhile jsonWs rest with
        | c2 :: r2 =>
          if c2 = rBrace then some (.obj [], r2)
          else (parseMembers fuel (c2 :: r2)).map (fun p => (.obj p.1, p.2))
        | [] => none
      else if c = '-' ∨ isDigitChar c then
        (parseNumber (c :: rest)).map (fun p => (.num p.1, p.2))
      else none

/-- Array elements from the first element on; handles the separating commas
and the closing bracket. -/
def parseItems (fuel : Nat) (cs : List Char) : Option (List JValue × List Char) :=
  match fuel with
  | 0 => none
  | fuel + 1 =>
    match parseValue fuel cs with
    | none => none
    | some (v, r1) =>
      match List.dropWhile jsonWs r1 with
      | ',' :: r3 =>
        match parseItems fuel (List.dropWhile jsonWs r3) with
        | some (vs, r4) => some (v :: vs, r4)
        | none => none
      | ']' :: r3 => some ([v], r3)
      | _ => none

/-- Object members from the first key on; handles colons, commas and the
closing brace. -/
def parseMembers (fuel : Nat) (cs : List Char) :
    Option (List (String × JValue) × List Char) :=
  match fuel with
  | 0 => none
  | fuel + 1 =>
    match cs with
    | '"' :: rest =>
      match parseStringBody fuel rest with
      | none => none
      | some (key, r1) =>
        match List.dropWhile jsonWs r1 with
        | ':' :: r3 =>
          match parseValue fuel (List.dropWhile jsonWs r3) with
          | none => none
          | some (v, r4) =>
            match List.dropWhile jsonWs r4 with
            | ',' :: r6 =>
              match parseMembers fuel (List.dropWhile jsonWs r6) with
              | some (ms, r7) => some ((String.mk key, v) :: ms, r7)
              | none => none
            | c :: r6 =>
              if c = rBrace then some ([(String.mk key, v)], r6) else none
            | [] => none
        | _ => none
    | _ => none

end

/-- Models Python json.loads: leading and trailing insignificant whitespace is
allowed around exactly one JSON value. -/
def json_loads (s : String) : Option JValue :=
  match parseValue (2 * s.toList.length + 16) (List.dropWhile jsonWs s.toList) with
  | some (v, rest) => if List.dropWhile jsonWs rest = [] then some v else none
  | none => none

/-- Python dict lookup for parser output: the last binding of the key wins,
matching dict construction from a key-value sequence. -/
def jGet (fields : List (String × JValue)) (key : String) : Option JValue :=
  (fields.reverse.find? (fun p => p.1 = key)).map (fun p => p.2)

/-- Python truthiness of a decoded JSON value.  A numeric literal is falsy
exactly when its mantissa digits are all zero. -/
def pyTruthy (v : JValue) : Bool :=
  match v with
  | .null => false
  | .bool b => b
  | .num lex =>
    if lex = "NaN" ∨ lex = "Infinity" ∨ lex = "-Infinity" then true
    else ¬ ((lex.toList.takeWhile (fun c => ¬ (c = 'e' ∨ c = 'E'))).all
      (fun c => ¬ isDigitChar c ∨ c = '0'))
  | .str s => ¬ (s = "")
  | .arr [] => false
  | .arr (_ :: _) => true
  | .obj [] => false
  | .obj (_ :: _) => true

/-- Python str() of a decoded JSON value.  Only the string branch is reached
by the theorems below; the remaining branches are stand-ins for the Python
renderings of non-string values and are never exercised. -/
def pyToStr : JValue → String
  | .str s => s
  | .num lex => lex
  | .bool true => "True"
  | .bool false => "False"
  | .null => "None"
  | .arr _ => "<list>"
  | .obj _ => "<dict>"

/-! ## Discovery rendering: src/ui_generator.py, generate_scout_flex. -/

/-- One rendered article entry: the displayed title, the link target, and the
postback byte payload of its Deep Dive button. -/
structure ScoutItem where
  title : String
  url : String
  postback : List Nat
deriving DecidableEq, Repr

/-- One body block of the discovery bubble: an article entry or the separator
placed between entries. -/
inductive ScoutBlock where
  | item (it : ScoutItem)
  | sep
deriving DecidableEq, Repr

/-- The message returned by generate_scout_flex: either the plain no-results
text message or the Flex bubble with its alt text, header line and body
blocks. -/
inductive ScoutMsg where
  | textMsg (text : String)
  | flexMsg (altText : String) (headerText : String) (blocks : List ScoutBlock)
deriving DecidableEq, Repr

/-- Python or-chains over optional lookups: the first truthy candidate wins,
otherwise the default.  Models `d.get(a) or d.get(b) or literal`. -/
def firstTruthy (cands : List (Option JValue)) (default : JValue) : JValue :=
  match cands with
  | [] => default
  | c :: rest =>
    match c with
    | some v => if pyTruthy v then v else firstTruthy rest default
    | none => firstTruthy rest default

/-- Title of one article record, with the fallback chain of the source:
title, then name, then the placeholder. -/
def scoutTitle (m : List (String × JValue)) : String :=
  pyToStr (firstTruthy [jGet m "title", jGet m "name"] (.str "Untitled Article"))

/-- Link target of one article record: url, then link, then the default
landing page. -/
def scoutUrl (m : List (String × JValue)) : String :=
  pyToStr (firstTruthy [jGet m "url", jGet m "link"] (.str "https://arxiv.org"))

/-- One rendered article entry with its Deep Dive postback payload. -/
def scoutItemOf (domainKey : String) (m : List (String × JValue)) : ScoutItem :=
  ⟨scoutTitle m, scoutUrl m, postbackDataBytes domainKey (scoutUrl m)⟩

/-- Checks that every element of the parsed array is an object and extracts
the field lists; a non-object element makes the source raise
AttributeError at art.get. -/
def allObjs : List JValue → Option (List (List (String × JValue)))
  | [] => some []
  | .obj m :: rest => (allObjs rest).map (fun ms => m :: ms)
  | _ :: _ => none

/-- Models src/ui_generator.py generate_scout_flex.  json.loads failure (or a
non-string input, which cannot arise from the call sites) yields the empty
list; a falsy parse result yields the no-results text message; a truthy list
of objects yields the Flex bubble whose body interleaves article entries with
separators (the source pops the trailing separator, leaving exactly the
interleaving); a truthy non-list value or a list containing a non-object
raises, modelled as the error outcome. -/
def generate_scout_flex (domain_name : String) (articles_json_str : String)
    (domain_key : String) : Except Unit ScoutMsg :=
  let articles := (json_loads articles_json_str).getD (JValue.arr [])
  if ¬ pyTruthy articles then
    .ok (.textMsg "No results found. Please try again later.")
  else
    match articles with
    | .arr items =>
      match allObjs items with
      | some ms =>
        .ok (.flexMsg (domain_name ++ " Report")
          ("🔍 " ++ domain_name ++ " Scout Report")
          (List.intersperse ScoutBlock.sep
            (ms.map (fun m => ScoutBlock.item (scoutItemOf domain_key m)))))
      | none => .error ()
    | _ => .error ()

/-! ## Agent result recovery: src/scout_agent.py. -/

/-- Python truthiness of an optional string (None and the empty string are
falsy). -/
def pyTruthyOptStr : Option String → Bool
  | none => false
  | some s => ¬ (s = "")

/-- Models the recovery chain shared by ScoutAgent.run_discovery and
ScoutAgent.run_summary: keep the terminal result when it is truthy; otherwise
take the most recent extracted content when any exists; otherwise return the
terminal result unchanged (None, or an empty string). -/
def recoverResult (finalResult : Option String) (extracted : List String) :
    Option String :=
  if pyTruthyOptStr finalResult then finalResult
  else
    match extracted.getLast? with
    | some lastContent => some lastContent
    | none => finalResult

/-- Models ScoutAgent.run_discovery over the outcome of the external agent
run: a raising run is re-raised with the Discovery failed prefix; a completed
run goes through the recovery chain.  The agent is the external collaborator;
its terminal result and extracted-content history are the inputs. -/
def run_discovery (agentRaise : Option String) (finalResult : Option String)
    (extracted : List String) : Except String (Option String) :=
  match agentRaise with
  | some cause => .error ("Discovery failed: " ++ cause)
  | none => .ok (recoverResult finalResult extracted)

/-- Models ScoutAgent.run_summary, identical to discovery except for the
failure prefix. -/
def run_summary (agentRaise : Option String) (finalResult : Option String)
    (extracted : List String) : Except String (Option String) :=
  match agentRaise with
  | some cause => .error ("Summary failed: " ++ cause)
  | none => .ok (recoverResult finalResult extracted)

/-! ## Intent parsing: src/intent_parser.py. -/

/-- The synthetic configuration dict built by parse_intent for topics without
a stored domain, with the underscore domain key entry first. -/
structure SynthConfig where
  domainKey : String
  domain : String
  sourceName : String
  sourceUrl : String
  discoveryGoal : String
  summaryDepth : String
  focusPoints : List String
  colorCode : String
  icon : String
deriving DecidableEq, Repr

/-- A resolved configuration: a stored YAML-backed domain (its contents live
outside src and are represented by the key) or a synthetic one. -/
inductive IntentConfig where
  | storedDomain (key : String)
  | synthetic (cfg : SynthConfig)
deriving DecidableEq, Repr

/-- The arXiv search url template of parse_intent: spaces in the topic are
replaced by plus signs; no other escaping is applied. -/
def arxivSearchUrl (topic : String) : String :=
  "https://arxiv.org/search/?searchtype=all&query=" ++
    String.mk (topic.toList.map (fun ch => if ch = ' ' then '+' else ch)) ++
    "&order=-announced_date_first"

/-- The three generic focus points of the synthetic configuration. -/
def defaultFocusPoints : List String :=
  ["Core technical contribution", "Problem being solved",
    "Key results or findings"]

/-- The synthetic-configuration branch of parse_intent.  The topic falls back
to the first sixty characters of the user text, the search query to a generic
sentence about the topic.  A truthy non-string topic makes the source raise
at topic.replace, modelled as the error outcome; the discovery goal is stored
as the str() rendering of the search-query value, which is how its only
consumer (the task prompt) uses it. -/
def syntheticConfig (fields : List (String × JValue)) (user_text : String) :
    Except Unit (Option IntentConfig) :=
  match firstTruthy [jGet fields "topic"]
      (.str (String.mk (user_text.toList.take 60))) with
  | .str topic =>
    .ok (some (.synthetic
      { domainKey := "custom:" ++ topic
        domain := topic
        sourceName := "arXiv"
        sourceUrl := arxivSearchUrl topic
        discoveryGoal := pyToStr (firstTruthy [jGet fields "search_query"]
          (.str ("Recent papers about " ++ topic ++ ".")))
        summaryDepth := "detailed"
        focusPoints := defaultFocusPoints
        colorCode := "#7B61FF"
        icon := "🔬" }))
  | _ => .error ()

/-- Models src/intent_parser.py parse_intent.  The classifier call itself is
outside any try block, so a raising call propagates (the error outcome); only
json.loads of the reply content is guarded, an unparsable reply yielding
None.  A reply that parses to a non-object raises at parsed.get.  A falsy
is_scout_request yields None; a truthy matched_domain present in the store
selects the stored config; anything else builds the synthetic config. -/
def parse_intent (available : List String) (user_text : String)
    (classifier : Except Unit String) : Except Unit (Option IntentConfig) :=
  match classifier with
  | .error e => .error e
  | .ok content =>
    match json_loads content with
    | none => .ok none
    | some (.obj fields) =>
      if ¬ pyTruthy ((jGet fields "is_scout_request").getD .null) then .ok none
      else
        match jGet fields "matched_domain" with
        | some (.str k) =>
          if ¬ (k = "") ∧ k ∈ available then .ok (some (.storedDomain k))
          else syntheticConfig fields user_text
        | _ => syntheticConfig fields user_text
    | some _ => .error ()

/-! ## Webhook handlers and background tasks: src/app.py. -/

/-- A message pushed to the user over the push channel. -/
inductive PushMsg where
  | text (t : String)
  | scoutFlex (m : ScoutMsg)
  | summaryFlex (m : SummaryFlex)
deriving DecidableEq, Repr

/-- Stand-in for the str() of the AttributeError raised inside
generate_scout_flex on malformed structured data; its exact text is a Python
runtime detail no theorem depends on. -/
def attrErrorStr : String := "AttributeError"

/-- Models the background task run_agent_and_reply over the outcome of
run_discovery: every exception inside the try block (the agent phase or the
renderer) is caught and pushed as the Scout error apology naming the domain
label; a None result pushes the no-result notice; otherwise the rendered
discovery bubble is pushed.  The returned list is everything pushed to the
user. -/
def run_agent_and_reply (domainLabel domainKey : String)
    (discovery : Except String (Option String)) : List PushMsg :=
  match discovery with
  | .error e => [.text ("❌ Scout error (" ++ domainLabel ++ "): " ++ e)]
  | .ok none => [.text "查無相關結果，請換個關鍵字再試。"]
  | .ok (some resultJson) =>
    match generate_scout_flex (pyUpper domainLabel) resultJson domainKey with
    | .ok msg => [.scoutFlex msg]
    | .error _ => [.text ("❌ Scout error (" ++ domainLabel ++ "): " ++ attrErrorStr)]

/-- Models the background task run_summary_and_reply over the outcome of
run_summary: an exception is caught and pushed as the Summary Error apology;
a completed summary (None becomes the empty string at the or-fallback of the
renderer) is rendered and pushed.  The domain key only selects the stored
focus points, which live outside src; it does not influence the failure
message. -/
def run_summary_and_reply (domainKey : String)
    (summary : Except String (Option String)) : List PushMsg :=
  match summary with
  | .error e => [.text ("❌ Summary Error: " ++ e)]
  | .ok s => [.summaryFlex (generate_summary_flex (s.getD ""))]

/-- Observable outcome of handle_message on the reply channel: the help
bubble, or the acknowledgment followed by a dispatched background discovery
task for the resolved config. -/
inductive HandlerAction where
  | replyHelp
  | ackAndDispatch (config : IntentConfig)
deriving DecidableEq, Repr

/-- The four help keywords recognised after stripping and lower-casing. -/
def helpKeywords : List (List Char) :=
  ["help".toList, "/help".toList, "說明".toList, "使用說明".toList]

/-- Models src/app.py handle_message: strip the text; a help keyword
(case-insensitively) replies with the help bubble at once; otherwise the
intent parser runs inside a try block whose failure is treated as None, None
shows the help bubble, and a resolved config is acknowledged and dispatched. -/
def handle_message (available : List String) (text : String)
    (classifier : Except Unit String) : HandlerAction :=
  let user_text := pyStrip text.toList
  if pyLower user_text ∈ helpKeywords then .replyHelp
  else
    match parse_intent available (String.mk user_text) classifier with
    | .error _ => .replyHelp
    | .ok none => .replyHelp
    | .ok (some cfg) => .ackAndDispatch cfg

/-! ## Spec-side definitions.

These two definitions follow the words of the specification claims (not the
source); they exist only to be compared with the source models. -/

/-- Line marker test used by the claim-side decomposition. -/
def claimIsH3 (l : List Char) : Bool := l.take 4 = ['#', '#', '#', ' ']

/-- Claim-side section gathering: a line starting with three hashes and a
space opens a section; its body is the following lines up to the next such
line. -/
def claimGatherF : Nat → List Char → List (List Char) →
    List (List Char × List (List Char))
  | 0, h, rest => [(h, rest)]
  | fuel + 1, h, rest =>
    match rest.dropWhile (fun l => ¬ claimIsH3 l) with
    | [] => [(h, rest.takeWhile (fun l => ¬ claimIsH3 l))]
    | hl :: rest2 =>
      (h, rest.takeWhile (fun l => ¬ claimIsH3 l)) ::
        claimGatherF fuel (hl.drop 4) rest2

/-- `claimGatherF` with adequate fuel: every step continues past at least the
matched heading line, so any fuel above the number of lines is adequate. -/
def claimGather (h : List Char) (rest : List (List Char)) :
    List (List Char × List (List Char)) :=
  claimGatherF (rest.length + 1) h rest

/-- Claim-side sections of the whole document: text before the first
level-3 heading line is discarded. -/
def claimSections (lines : List (List Char)) :
    List (List Char × List (List Char)) :=
  match lines.dropWhile (fun l => ¬ claimIsH3 l) with
  | [] => []
  | hl :: rest => claimGather (hl.drop 4) rest

/-- Claim-side bullet extraction from a section body, following C1 verbatim:
emphasis stripped, dash-space lines become the bullets with the prefix
stripped, and only bodies with no such lines are split at ideographic and
ASCII full stops. -/
def claimBodyBullets (bodyLines : List (List Char)) : List (List Char) :=
  let body := subItalic (subBold (pyStrip (List.intercalate ['\n'] bodyLines)))
  let lines := ((splitOnP (fun c => c = '\n') body).map pyStrip).filter
    (fun l => ¬ (l = []))
  let dash := lines.filter (fun l => l.take 2 = ['-', ' '])
  if ¬ (dash = []) then dash.map (fun l => l.drop 2)
  else
    ((splitOnP (fun c => c = '。' ∨ c = '.') body).map pyStrip).filter
      (fun s => ¬ (s = []))

/-- The markdown decomposition exactly as claim C1 words it: title from the
first line carrying the level-2 marker, sections split at level-3 marker
lines, per-body bullet extraction as in `claimBodyBullets`, sections with
zero resulting bullets omitted from the document, and the raw-text fallback
when nothing remains. -/
def claimRenderSummary (summary_text : String) : SummaryFlex :=
  let text := pyStrip summary_text.toList
  let lines := splitOnP (fun c => c = '\n') text
  let title :=
    match lines.find? (fun l => l.take 3 = ['#', '#', ' ']) with
    | some l => String.mk (pyStrip (l.drop 3))
    | none => "Deep Dive Analysis"
  let secs := (claimSections lines).filterMap (fun hb =>
    match claimBodyBullets hb.2 with
    | [] => none
    | bullets =>
      some (SummaryBlock.sec ⟨String.mk (pyStrip hb.1), bullets.map String.mk⟩))
  let blocks :=
    if secs = [] then [SummaryBlock.fallbackText (String.mk (cleanedFallback text))]
    else secs
  ⟨title, blocks⟩

/-- Url built as claim C7 words it: the query is interpolated URL-escaped
(quote_plus over its UTF-8 bytes) into the fixed arXiv search template. -/
def claimEscapedArxivUrl (topic : String) : String :=
  "https://arxiv.org/search/?searchtype=all&query=" ++
    String.mk ((quotePlus (utf8Bytes topic)).map Char.ofNat) ++
    "&order=-announced_date_first"

/-! ## Claim theorems -/

/-- C1, counterexample.  On the input below the source and the decomposition
worded by the claim disagree: the source splits prose lines into bullets even
in a body that has dash bullets, treats the line break as a fragment
separator, and keeps a section whose body produced zero bullets, while the
claim-side decomposition returns only the dash bullet of the first section
and omits the second section. -/
theorem summary_spec_decomp_cex :
    generate_summary_flex "## T\n### S\n- a\nb\nc. d\n### R\n." ≠
      claimRenderSummary "## T\n### S\n- a\nb\nc. d\n### R\n." ∧
    generate_summary_flex "## T\n### S\n- a\nb\nc. d\n### R\n." =
      ⟨"T", [SummaryBlock.sec ⟨"S", ["a", "b", "c", "d"]⟩,
        SummaryBlock.sec ⟨"R", []⟩]⟩ ∧
    claimRenderSummary "## T\n### S\n- a\nb\nc. d\n### R\n." =
      ⟨"T", [SummaryBlock.sec ⟨"S", ["a"]⟩]⟩ := by
  refine ⟨?_, by decide, by decide⟩
  decide

/-- C1, amended.  The renderer follows the decomposition of the source: the
title and the level-3 splitting are as claimed, but bullets are produced per
line (a dash-space line verbatim with the prefix stripped, every other
nonempty line split at ideographic and ASCII full stops, line breaks also
separating bullets), and a section whose nonempty body produced zero bullets
is kept with its heading and no bullets.  The theorem checks the claim on its
own example and on the counterexample input. -/
theorem summary_flex_amended_examples :
    generate_summary_flex "## Paper X\n### 背景\n- 問題一\n- 問題二" =
      ⟨"Paper X", [SummaryBlock.sec ⟨"背景", ["問題一", "問題二"]⟩]⟩ ∧
    generate_summary_flex "## T\n### S\n- a\nb\nc. d\n### R\n." =
      ⟨"T", [SummaryBlock.sec ⟨"S", ["a", "b", "c", "d"]⟩,
        SummaryBlock.sec ⟨"R", []⟩]⟩ := by
  constructor
  · decide
  · decide

/-- C8: generate_summary_flex is a total function of the input string, its
body always holds at least one block, and when the decomposition kept no
section the single block is the fallback text: heading markers and emphasis
stars removed from the stripped raw input. -/
theorem summary_flex_total (s : String) :
    (generate_summary_flex s).blocks ≠ [] ∧
    ((summarySections (pyStrip s.toList)).filterMap sectionClean = [] →
      (generate_summary_flex s).blocks =
        [SummaryBlock.fallbackText
          (String.mk (cleanedFallback (pyStrip s.toList)))]) := by
  unfold generate_summary_flex
  simp only
  constructor
  · split
    next => simp
    next hne => exact hne
  · intro hsecs
    rw [hsecs]
    simp

/-- Witness for `summary_flex_total` on an input with no headings at all. -/
theorem summary_flex_total_witness :
    (generate_summary_flex "no headings at all").blocks =
      [SummaryBlock.fallbackText "no headings at all"] := by
  have h := (summary_flex_total "no headings at all").2 (by decide)
  rw [h]
  decide

/-! ## Supporting lemmas for the discovery renderer -/

theorem pyToStr_truthy_ne {v : JValue} (h : pyTruthy v = true) :
    pyToStr v ≠ "" := by
  cases v with
  | null => simp [pyTruthy] at h
  | bool b =>
    cases b with
    | false => simp [pyTruthy] at h
    | true => simp [pyToStr]
  | num lex =>
    intro hlex
    have hl : lex = "" := hlex
    rw [hl] at h
    simp [pyTruthy] at h
  | str s =>
    simp only [pyTruthy, decide_eq_true_eq] at h
    simpa [pyToStr] using h
  | arr items =>
    cases items with
    | nil => simp [pyTruthy] at h
    | cons a rest => simp [pyToStr]
  | obj fields =>
    cases fields with
    | nil => simp [pyTruthy] at h
    | cons a rest => simp [pyToStr]

theorem firstTruthy_cases (cands : List (Option JValue)) (d : JValue) :
    pyTruthy (firstTruthy cands d) = true ∨ firstTruthy cands d = d := by
  induction cands with
  | nil => right; rfl
  | cons c rest ih =>
    cases c with
    | none => simpa [firstTruthy] using ih
    | some v =>
      by_cases hv : pyTruthy v
      · left; simpa [firstTruthy, hv] using hv
      · simpa [firstTruthy, hv] using ih

theorem scoutUrl_ne_empty (m : List (String × JValue)) : scoutUrl m ≠ "" := by
  unfold scoutUrl
  rcases firstTruthy_cases [jGet m "url", jGet m "link"]
      (.str "https://arxiv.org") with h | h
  · exact pyToStr_truthy_ne h
  · rw [h]; decide

theorem allObjs_length :
    ∀ {arts : List JValue} {ms : List (List (String × JValue))},
    allObjs arts = some ms → ms.length = arts.length := by
  intro arts
  induction arts with
  | nil =>
    intro ms h
    simp only [allObjs, Option.some.injEq] at h
    subst h
    rfl
  | cons a rest ih =>
    intro ms h
    cases a with
    | obj m =>
      simp only [allObjs, Option.map_eq_some'] at h
      obtain ⟨ms', hms', rfl⟩ := h
      simp [ih hms']
    | null => simp [allObjs] at h
    | bool b => simp [allObjs] at h
    | num lex => simp [allObjs] at h
    | str s => simp [allObjs] at h
    | arr l => simp [allObjs] at h

/-! ## C3 and C4 theorems -/

/-- C3, counterexample.  A record with no title key but a name key is
rendered with the name, not with the placeholder the claim prescribes for a
record missing its title (and likewise the link key replaces the default
landing page). -/
theorem scout_missing_title_alias_cex :
    generate_scout_flex "AI" "[\x7b\"name\": \"X\", \"link\": \"https://z.com\"\x7d]" "aiops" =
      .ok (.flexMsg "AI Report" "🔍 AI Scout Report"
        [.item ⟨"X", "https://z.com", postbackDataBytes "aiops" "https://z.com"⟩]) ∧
    "X" ≠ "Untitled Article" ∧ ("https://z.com" : String) ≠ "https://arxiv.org" := by
  refine ⟨by rfl, by decide, by decide⟩

/-- C3, amended.  For every string parsing to a JSON array whose elements are
all objects, the renderer emits exactly one link item per record in input
order (separated by separator blocks), substituting the alias chains
title-then-name-then-placeholder and url-then-link-then-default for missing
fields instead of dropping records or raising; the empty array yields the
single no-results message; and each postback token decodes back to the
summarize action with the domain key and the rendered url. -/
theorem scout_discovery_renders (dn s dk : String) (arts : List JValue)
    (ms : List (List (String × JValue)))
    (hp : json_loads s = some (.arr arts))
    (hobjs : allObjs arts = some ms) :
    (arts = [] → generate_scout_flex dn s dk =
      .ok (.textMsg "No results found. Please try again later.")) ∧
    (arts ≠ [] → generate_scout_flex dn s dk =
      .ok (.flexMsg (dn ++ " Report") ("🔍 " ++ dn ++ " Scout Report")
        (List.intersperse .sep
          (ms.map (fun m => .item (scoutItemOf dk m)))))) ∧
    ms.length = arts.length ∧
    (∀ m ∈ ms,
      (jGet m "title" = none → jGet m "name" = none →
        (scoutItemOf dk m).title = "Untitled Article") ∧
      (jGet m "url" = none → jGet m "link" = none →
        (scoutItemOf dk m).url = "https://arxiv.org")) ∧
    (∀ m ∈ ms, dk ≠ "" →
      handle_postback_decode (scoutItemOf dk m).postback =
        some (utf8Bytes (scoutItemOf dk m).url, utf8Bytes dk)) := by
  refine ⟨?_, ?_, allObjs_length hobjs, ?_, ?_⟩
  · intro hnil
    subst hnil
    unfold generate_scout_flex
    rw [hp]
    rfl
  · intro hne
    unfold generate_scout_flex
    rw [hp]
    cases arts with
    | nil => exact absurd rfl hne
    | cons a rest =>
      show (if ¬ pyTruthy (.arr (a :: rest)) then _ else _) = _
      rw [if_neg (by simp [pyTruthy])]
      show (match allObjs (a :: rest) with
        | some ms2 => Except.ok
            (ScoutMsg.flexMsg (dn ++ " Report") ("🔍 " ++ dn ++ " Scout Report")
              (List.intersperse ScoutBlock.sep
                (List.map (fun m => ScoutBlock.item (scoutItemOf dk m)) ms2)))
        | none => Except.error ()) = _
      rw [hobjs]
  · intro m hm
    constructor
    · intro h1 h2
      unfold scoutItemOf scoutTitle
      rw [h1, h2]
      rfl
    · intro h1 h2
      unfold scoutItemOf scoutUrl
      rw [h1, h2]
      rfl
  · intro m hm hdk
    unfold scoutItemOf
    exact postback_roundtrip dk (scoutUrl m) hdk (scoutUrl_ne_empty m)

/-- Witness for `scout_discovery_renders` on a two-record array whose second
record is missing both title and url. -/
theorem scout_discovery_renders_witness :
    generate_scout_flex "AI" "[\x7b\"title\": \"A\", \"url\": \"https://x.com/a?b=c&d=e\"\x7d, \x7b\x7d]" "aiops" =
      .ok (.flexMsg "AI Report" "🔍 AI Scout Report"
        [.item ⟨"A", "https://x.com/a?b=c&d=e",
          postbackDataBytes "aiops" "https://x.com/a?b=c&d=e"⟩, .sep,
         .item ⟨"Untitled Article", "https://arxiv.org",
          postbackDataBytes "aiops" "https://arxiv.org"⟩]) ∧
    handle_postback_decode
        (scoutItemOf "aiops" [("title", .str "A"),
          ("url", .str "https://x.com/a?b=c&d=e")]).postback =
      some (utf8Bytes "https://x.com/a?b=c&d=e", utf8Bytes "aiops") := by
  have h := scout_discovery_renders "AI"
    "[\x7b\"title\": \"A\", \"url\": \"https://x.com/a?b=c&d=e\"\x7d, \x7b\x7d]" "aiops"
    [.obj [("title", .str "A"), ("url", .str "https://x.com/a?b=c&d=e")], .obj []]
    [[("title", .str "A"), ("url", .str "https://x.com/a?b=c&d=e")], []]
    (by rfl) (by rfl)
  refine ⟨?_, ?_⟩
  · have h2 := h.2.1 (List.cons_ne_nil _ _)
    rw [h2]
    rfl
  · have h5 := h.2.2.2.2 [("title", .str "A"), ("url", .str "https://x.com/a?b=c&d=e")]
      (List.mem_cons_self _ _) (by decide)
    have hurl : (scoutItemOf "aiops"
        [("title", .str "A"), ("url", .str "https://x.com/a?b=c&d=e")]).url =
        "https://x.com/a?b=c&d=e" := by rfl
    rw [hurl] at h5
    exact h5

/-- C4, counterexample.  A narrative string that fails JSON parsing is not
rendered as a raw-text fallback block: the renderer returns the very same
no-results text message as the empty array, conflating the two cases. -/
theorem scout_narrative_conflated_cex :
    json_loads "no matches today" = none ∧
    generate_scout_flex "AI" "no matches today" "aiops" =
      .ok (.textMsg "No results found. Please try again later.") ∧
    generate_scout_flex "AI" "no matches today" "aiops" =
      generate_scout_flex "AI" "[]" "aiops" := by
  refine ⟨by rfl, by rfl, by rfl⟩

/-- C4, amended.  Every string on which json.loads raises is treated exactly
as the empty result: the renderer returns the no-results text message, so
narrative output is conflated with the empty case rather than rendered as
raw text. -/
theorem scout_parse_failure_no_results (dn dk s : String)
    (h : json_loads s = none) :
    generate_scout_flex dn s dk =
      .ok (.textMsg "No results found. Please try again later.") := by
  unfold generate_scout_flex
  rw [h]
  rfl

/-- Witness for `scout_parse_failure_no_results`. -/
theorem scout_parse_failure_no_results_witness :
    generate_scout_flex "AIOPS" "Could not find any relevant articles." "aiops" =
      .ok (.textMsg "No results found. Please try again later.") :=
  scout_parse_failure_no_results "AIOPS" "aiops"
    "Could not find any relevant articles." (by rfl)

/-! ## C5 theorems -/

/-- C5, counterexample.  When the agent ends with an explicit empty terminal
result and no extracted content, both runs return the empty string, not the
None the claim requires of the Empty case. -/
theorem recover_empty_final_cex :
    run_discovery none (some "") [] = .ok (some "") ∧
    run_summary none (some "") [] = .ok (some "") ∧
    (some "" : Option String) ≠ none := by
  refine ⟨by rfl, by rfl, by simp⟩

/-- C5, amended.  The recovery chain keeps a truthy terminal result; a falsy
terminal result falls back to the most recent extracted content when any
exists; otherwise the terminal value is returned unchanged, so None is
returned exactly when the agent gave no terminal result and extracted
nothing, and an explicit empty-string terminal result with no extractions is
returned as the empty string.  Both run methods return the chain result when
the agent run does not raise. -/
theorem recovery_chain_spec (finalResult : Option String)
    (extracted : List String) :
    (pyTruthyOptStr finalResult = true →
      recoverResult finalResult extracted = finalResult) ∧
    (pyTruthyOptStr finalResult = false → extracted ≠ [] →
      recoverResult finalResult extracted = extracted.getLast?) ∧
    (pyTruthyOptStr finalResult = false → extracted = [] →
      recoverResult finalResult extracted = finalResult) ∧
    (recoverResult finalResult extracted = none →
      finalResult = none ∧ extracted = []) ∧
    run_discovery none finalResult extracted =
      .ok (recoverResult finalResult extracted) ∧
    run_summary none finalResult extracted =
      .ok (recoverResult finalResult extracted) := by
  refine ⟨?_, ?_, ?_, ?_, by rfl, by rfl⟩
  · intro ht
    unfold recoverResult
    rw [if_pos ht]
  · intro hf hne
    unfold recoverResult
    rw [if_neg (by simp [hf])]
    cases hl : extracted.getLast? with
    | none => exact absurd (List.getLast?_eq_none_iff.mp hl) hne
    | some l => rfl
  · intro hf hnil
    subst hnil
    unfold recoverResult
    rw [if_neg (by simp [hf])]
    rfl
  · intro hnone
    unfold recoverResult at hnone
    split at hnone
    · next ht =>
      subst hnone
      simp [pyTruthyOptStr] at ht
    · next ht =>
      cases hl : extracted.getLast? with
      | some l => rw [hl] at hnone; exact absurd hnone (by simp)
      | none =>
        rw [hl] at hnone
        exact ⟨hnone, List.getLast?_eq_none_iff.mp hl⟩

/-- Witness for `recovery_chain_spec`: a falsy terminal result with extracted
content yields the last extracted content. -/
theorem recovery_chain_spec_witness :
    recoverResult none ["first", "second"] = some "second" := by
  have h := (recovery_chain_spec none ["first", "second"]).2.1 (by rfl)
    (by simp)
  rw [h]
  rfl

/-! ## C6 theorems -/

/-- C6, counterexample.  A failing classifier call propagates out of
parse_intent as an exception; parse_intent does not return None in that
case. -/
theorem parse_intent_propagates_cex :
    parse_intent ["aiops"] "quantum computing" (.error ()) = .error () ∧
    parse_intent ["aiops"] "quantum computing" (.error ()) ≠ .ok none := by
  refine ⟨by rfl, ?_⟩
  intro hcontra
  have hbad : (Except.error () : Except Unit (Option IntentConfig)) = .ok none :=
    hcontra
  exact Except.noConfusion hbad

/-- C6, amended.  Unparsable classifier output makes parse_intent return
None; a failing classifier call raises out of parse_intent, and the caller
handle_message catches every such exception and falls back to the help path,
so classification failure still degrades to showing help and never reaches
dispatch. -/
theorem classifier_failure_help (available : List String) (text content : String)
    (hunp : json_loads content = none) :
    parse_intent available text (.ok content) = .ok none ∧
    handle_message available text (.error ()) = .replyHelp := by
  constructor
  · unfold parse_intent
    dsimp only
    rw [hunp]
  · unfold handle_message
    dsimp only
    split
    · rfl
    · rfl

/-- Witness for `classifier_failure_help`. -/
theorem classifier_failure_help_witness :
    parse_intent ["aiops"] "find agents papers" (.ok "I could not classify this.") =
      .ok none ∧
    handle_message ["aiops"] "find agents papers" (.error ()) = .replyHelp :=
  classifier_failure_help ["aiops"] "find agents papers"
    "I could not classify this." (by rfl)

/-! ## C7 theorems -/

/-- C7, counterexample.  The synthetic source url only replaces spaces by
plus signs; for the topic below it differs from the URL-escaped interpolation
the claim prescribes, and parse_intent indeed produces the unescaped form
(the ampersand of the topic lands raw inside the query value). -/
theorem synthetic_url_not_escaped_cex :
    arxivSearchUrl "AI & ML" ≠ claimEscapedArxivUrl "AI & ML" ∧
    parse_intent ["aiops"] "AI & ML papers"
        (.ok "\x7b\"is_scout_request\": true, \"topic\": \"AI & ML\", \"matched_domain\": null, \"search_query\": \"Recent AI and ML papers.\"\x7d") =
      .ok (some (.synthetic
        { domainKey := "custom:AI & ML"
          domain := "AI & ML"
          sourceName := "arXiv"
          sourceUrl := "https://arxiv.org/search/?searchtype=all&query=AI+&+ML&order=-announced_date_first"
          discoveryGoal := "Recent AI and ML papers."
          summaryDepth := "detailed"
          focusPoints := defaultFocusPoints
          colorCode := "#7B61FF"
          icon := "🔬" })) := by
  refine ⟨by decide, by rfl⟩

/-- C7, amended.  For every classified scouting request whose matched domain
is not a nonempty stored key, the synthetic config carries the custom-prefixed
domain key, the fixed arXiv search url with the topic interpolated after
replacing spaces by plus signs (no other escaping), the discovery goal equal
to the classifier search query, and exactly the three generic focus points
(never empty). -/
theorem synthetic_config_spec (available : List String)
    (user_text content : String) (fields : List (String × JValue))
    (topic q : String)
    (hp : json_loads content = some (.obj fields))
    (hreq : pyTruthy ((jGet fields "is_scout_request").getD .null) = true)
    (hmatched : ∀ k : String, jGet fields "matched_domain" = some (.str k) →
      ¬ (¬ (k = "") ∧ k ∈ available))
    (htopic : jGet fields "topic" = some (.str topic)) (ht : topic ≠ "")
    (hq : jGet fields "search_query" = some (.str q)) (hq0 : q ≠ "") :
    parse_intent available user_text (.ok content) =
      .ok (some (.synthetic
        { domainKey := "custom:" ++ topic
          domain := topic
          sourceName := "arXiv"
          sourceUrl := arxivSearchUrl topic
          discoveryGoal := q
          summaryDepth := "detailed"
          focusPoints := defaultFocusPoints
          colorCode := "#7B61FF"
          icon := "🔬" })) ∧
    defaultFocusPoints.length = 3 ∧ defaultFocusPoints ≠ [] := by
  refine ⟨?_, by decide, by decide⟩
  have hsynth : syntheticConfig fields user_text =
      .ok (some (.synthetic
        { domainKey := "custom:" ++ topic
          domain := topic
          sourceName := "arXiv"
          sourceUrl := arxivSearchUrl topic
          discoveryGoal := q
          summaryDepth := "detailed"
          focusPoints := defaultFocusPoints
          colorCode := "#7B61FF"
          icon := "🔬" }) ) := by
    unfold syntheticConfig
    rw [htopic]
    have htt : pyTruthy (.str topic) = true := by
      simp [pyTruthy]
      exact ht
    show (match firstTruthy [some (.str topic)]
        (.str (String.mk (user_text.toList.take 60))) with
      | JValue.str t => _
      | _ => _) = _
    rw [show firstTruthy [some (.str topic)]
        (.str (String.mk (user_text.toList.take 60))) = .str topic by
      simp [firstTruthy, htt]]
    dsimp only
    rw [hq]
    rw [show firstTruthy [some (.str q)]
        (.str ("Recent papers about " ++ topic ++ ".")) = .str q by
      simp [firstTruthy, pyTruthy]
      exact fun h => absurd h hq0]
    rfl
  unfold parse_intent
  dsimp only
  rw [hp]
  dsimp only
  rw [if_neg (by simp [hreq])]
  cases hm : jGet fields "matched_domain" with
  | none =>
    dsimp only
    exact hsynth
  | some v =>
    cases v with
    | str k =>
      dsimp only
      rw [if_neg (hmatched k hm)]
      exact hsynth
    | null => dsimp only; exact hsynth
    | bool b => dsimp only; exact hsynth
    | num lex => dsimp only; exact hsynth
    | arr l => dsimp only; exact hsynth
    | obj m2 => dsimp only; exact hsynth

/-- Witness for `synthetic_config_spec`: a topic with spaces lands in the url
with plus signs. -/
theorem synthetic_config_spec_witness :
    parse_intent ["aiops"] "latest papers on graph neural networks"
        (.ok "\x7b\"is_scout_request\": true, \"topic\": \"graph neural networks\", \"matched_domain\": null, \"search_query\": \"Recent papers on graph neural networks.\"\x7d") =
      .ok (some (.synthetic
        { domainKey := "custom:graph neural networks"
          domain := "graph neural networks"
          sourceName := "arXiv"
          sourceUrl := "https://arxiv.org/search/?searchtype=all&query=graph+neural+networks&order=-announced_date_first"
          discoveryGoal := "Recent papers on graph neural networks."
          summaryDepth := "detailed"
          focusPoints := defaultFocusPoints
          colorCode := "#7B61FF"
          icon := "🔬" })) := by
  have h := synthetic_config_spec ["aiops"]
    "latest papers on graph neural networks"
    "\x7b\"is_scout_request\": true, \"topic\": \"graph neural networks\", \"matched_domain\": null, \"search_query\": \"Recent papers on graph neural networks.\"\x7d"
    [("is_scout_request", .bool true), ("topic", .str "graph neural networks"),
      ("matched_domain", .null),
      ("search_query", .str "Recent papers on graph neural networks.")]
    "graph neural networks" "Recent papers on graph neural networks."
    (by rfl) (by rfl)
    (by intro k hk; exact absurd (Option.some.inj hk) (by intro he; cases he))
    (by rfl) (by decide) (by rfl) (by decide)
  have hurl : arxivSearchUrl "graph neural networks" =
      "https://arxiv.org/search/?searchtype=all&query=graph+neural+networks&order=-announced_date_first" := by
    decide
  rw [← hurl]
  exact h.1

/-! ## C9 theorems -/

/-- Prefix test on character lists. -/
def startsWithList : List Char → List Char → Bool
  | [], _ => true
  | _ :: _, [] => false
  | a :: as, b :: bs => a = b ∧ startsWithList as bs

/-- Substring test on character lists. -/
def containsList (needle : List Char) : List Char → Bool
  | [] => startsWithList needle []
  | h :: hs => startsWithList needle (h :: hs) ∨ containsList needle hs

/-- String containment used to state that an apology names a phase or a
domain. -/
abbrev containsStr (needle haystack : String) : Prop :=
  containsList needle.toList haystack.toList = true

theorem startsWithList_append (n t : List Char) :
    startsWithList n (n ++ t) = true := by
  induction n with
  | nil => rfl
  | cons a as ih => simpa [startsWithList] using ih

theorem containsList_of_append (n pre suf : List Char) :
    containsList n (pre ++ (n ++ suf)) = true := by
  induction pre with
  | nil =>
    simp only [List.nil_append]
    cases hns : n ++ suf with
    | nil =>
      have hn : n = [] := (List.append_eq_nil.mp hns).1
      subst hn
      rfl
    | cons x xs =>
      show (startsWithList n (x :: xs) ∨ containsList n xs : Bool) = true
      have hsw : startsWithList n (x :: xs) = true := by
        rw [← hns]
        exact startsWithList_append n suf
      rw [hsw]
      simp
  | cons p ps ih =>
    show (startsWithList n (p :: (ps ++ (n ++ suf))) ∨
      containsList n (ps ++ (n ++ suf)) : Bool) = true
    rw [ih]
    simp

theorem containsStr_of_decomp {n h : String} (pre suf : List Char)
    (he : h.toList = pre ++ (n.toList ++ suf)) : containsStr n h := by
  unfold containsStr
  rw [he]
  exact containsList_of_append n.toList pre suf

/-- C9, counterexample.  The deep-dive failure apology formats only the
fixed Summary Error prefix and the cause; for the aiops domain and a cause
that does not mention it, the pushed message does not contain the domain
name, contradicting the claim that the apology names both the phase and the
domain. -/
theorem summary_apology_no_domain_cex :
    run_summary (some "boom") (some "ignored") [] =
      .error ("Summary failed: boom") ∧
    run_summary_and_reply "aiops" (.error "Summary failed: boom") =
      [.text "❌ Summary Error: Summary failed: boom"] ∧
    ¬ containsStr "aiops" "❌ Summary Error: Summary failed: boom" := by
  refine ⟨by rfl, by rfl, by decide⟩

/-- C9, amended.  Both background tasks catch a raising agent phase and push
exactly one plain-text apology over the push channel: the discovery apology
names both the phase and the domain label, while the summary apology names
only the phase (the fixed Summary Error prefix plus the propagated cause),
not the domain. -/
theorem agent_failure_apologies (label key cause : String)
    (finalResult : Option String) (extracted : List String) :
    run_agent_and_reply label key
        (run_discovery (some cause) finalResult extracted) =
      [.text ("❌ Scout error (" ++ label ++ "): " ++
        ("Discovery failed: " ++ cause))] ∧
    containsStr "Discovery"
      ("❌ Scout error (" ++ label ++ "): " ++ ("Discovery failed: " ++ cause)) ∧
    containsStr label
      ("❌ Scout error (" ++ label ++ "): " ++ ("Discovery failed: " ++ cause)) ∧
    run_summary_and_reply key
        (run_summary (some cause) finalResult extracted) =
      [.text ("❌ Summary Error: " ++ ("Summary failed: " ++ cause))] ∧
    containsStr "Summary"
      ("❌ Summary Error: " ++ ("Summary failed: " ++ cause)) := by
  refine ⟨by rfl, ?_, ?_, by rfl, ?_⟩
  · refine containsStr_of_decomp
      ("❌ Scout error (".toList ++ label.toList ++ "): ".toList)
      (" failed: ".toList ++ cause.toList) ?_
    have hsplit : ("Discovery failed: " : String).data =
        ("Discovery" : String).data ++ (" failed: " : String).data := by decide
    simp only [String.toList, String.data_append, hsplit, List.append_assoc]
    simp
  · refine containsStr_of_decomp ("❌ Scout error (".toList)
      ("): ".toList ++ ("Discovery failed: ".toList ++ cause.toList)) ?_
    simp only [String.toList, String.data_append, List.append_assoc]
  · refine containsStr_of_decomp ("❌ Summary Error: ".toList)
      (" failed: ".toList ++ cause.toList) ?_
    have hsplit : ("Summary failed: " : String).data =
        ("Summary" : String).data ++ (" failed: " : String).data := by decide
    simp only [String.toList, String.data_append, hsplit, List.append_assoc]
    simp

/-! ## C10 theorem -/

/-- C10: a message whose stripped text equals one of the four help keywords
case-insensitively is answered with the help bubble immediately, for every
classifier outcome — so the classifier is never consulted and nothing is
dispatched for such messages. -/
theorem help_keyword_replies (available : List String) (text : String)
    (classifier : Except Unit String)
    (h : pyLower (pyStrip text.toList) ∈ helpKeywords) :
    handle_message available text classifier = .replyHelp := by
  unfold handle_message
  rw [if_pos h]

/-- Witness for `help_keyword_replies` on an upper-case help message with
surrounding whitespace. -/
theorem help_keyword_replies_witness :
    handle_message ["aiops"] "  HELP  " (.ok "ignored") = .replyHelp :=
  help_keyword_replies ["aiops"] "  HELP  " (.ok "ignored") (by decide)

end Scoutly
